import Mathlib

/-!
Verification development for the GPX track ingestion and quality-enhancement
pipeline of the repository (src/services/gpx_processing_service.py, src/utils.py,
src/config.py).

Modelling conventions:
* Python floats are modelled as exact rationals (ℚ); `round(x, n)` is modelled
  as decimal rounding half-to-even at `n` decimal places.
* A Python list of track-point dicts is modelled as `List TrackPoint`.
* Python's in-place mutation of point dicts (elevation smoothing, timestamp
  interpolation) is modelled twice: once at the value level (each stage as a
  pure function on the list of point values it receives and returns), and once
  at the heap level (`Store` below), where a Python list of dict references is
  a list of indices into an explicit store, so that aliasing between the raw
  parsed list and the enhanced list is represented faithfully.
* ISO-8601 timestamp strings are modelled as rational time values; parsing a
  stored timestamp always succeeds in the model (the source only re-parses
  strings it produced itself via isoformat).
-/

/-- A GPX track point: the dict
`{'lat': .., 'lon': .., 'elevation': .., 'time': ..}` built by
`parse_gpx_tracks`. -/
structure TrackPoint where
  lat : ℚ
  lon : ℚ
  elevation : Option ℚ
  time : Option ℚ
deriving DecidableEq, Repr

instance : Inhabited TrackPoint := ⟨⟨0, 0, none, none⟩⟩

/-- Round a rational to the nearest integer, ties to even: the rounding mode of
Python's builtin `round`. -/
def round_half_even (q : ℚ) : ℤ :=
  if Int.fract q < 1/2 then ⌊q⌋
  else if 1/2 < Int.fract q then ⌊q⌋ + 1
  else if 2 ∣ ⌊q⌋ then ⌊q⌋ else ⌊q⌋ + 1

/-- Python `round(x, n)` for a nonnegative digit count `n`, on the exact
rational model of the float `x`. -/
def pyRound (n : Nat) (q : ℚ) : ℚ :=
  (round_half_even (q * 10 ^ n) : ℚ) / 10 ^ n

theorem round_half_even_intCast (k : ℤ) : round_half_even (k : ℚ) = k := by
  simp [round_half_even, Int.fract_intCast]

theorem pyRound_pyRound (n : Nat) (q : ℚ) : pyRound n (pyRound n q) = pyRound n q := by
  unfold pyRound
  have h10 : ((10 : ℚ) ^ n) ≠ 0 := by positivity
  rw [div_mul_cancel₀ _ h10, round_half_even_intCast]

/-- `_fix_coordinate_precision`, action on one point: round lat/lon to 7
decimal places and elevation, when present, to 2. The `time` field is copied
unchanged. -/
def fixPoint (p : TrackPoint) : TrackPoint :=
  { p with
    lat := pyRound 7 p.lat
    lon := pyRound 7 p.lon
    elevation := p.elevation.map (pyRound 2) }

/-- `_fix_coordinate_precision`: the source loop appends one fixed copy per
input point, in order. -/
def fix_coordinate_precision : List TrackPoint → List TrackPoint
  | [] => []
  | p :: tl => fixPoint p :: fix_coordinate_precision tl

theorem fix_coordinate_precision_eq_map (pts : List TrackPoint) :
    fix_coordinate_precision pts = pts.map fixPoint := by
  induction pts with
  | nil => rfl
  | cons p tl ih => simp [fix_coordinate_precision, ih]

theorem fixPoint_fixPoint (p : TrackPoint) : fixPoint (fixPoint p) = fixPoint p := by
  cases p with
  | mk lat lon elevation time =>
    cases elevation <;>
      simp [fixPoint, pyRound_pyRound, Option.map]

/-- Dedup tolerance `0.000001` from `_remove_duplicate_points`. -/
def dedupTolerance : ℚ := 1/1000000

/-- The walk of `_remove_duplicate_points`, generic in how latitude and
longitude are read off a list element (instantiated with record fields at the
value level and with store lookups at the heap level). `prev` is the last kept
element. -/
def dedupWalk (lat lon : α → ℚ) (prev : α) : List α → List α
  | [] => []
  | c :: tl =>
      if dedupTolerance < |lat c - lat prev| ∨ dedupTolerance < |lon c - lon prev| then
        c :: dedupWalk lat lon c tl
      else
        dedupWalk lat lon prev tl

/-- `_remove_duplicate_points`, generic form: always keep the first element,
then walk. (The source's early return for lists of length < 2 coincides with
this definition on those lists.) -/
def removeDuplicatePointsG (lat lon : α → ℚ) : List α → List α
  | [] => []
  | p :: tl => p :: dedupWalk lat lon p tl

/-- `_remove_duplicate_points` on track-point values. -/
def remove_duplicate_points : List TrackPoint → List TrackPoint :=
  removeDuplicatePointsG TrackPoint.lat TrackPoint.lon

theorem dedupWalk_length_le (lat lon : α → ℚ) (prev : α) (l : List α) :
    (dedupWalk lat lon prev l).length ≤ l.length := by
  induction l generalizing prev with
  | nil => simp [dedupWalk]
  | cons c tl ih =>
      simp only [dedupWalk]
      split
      · simpa using Nat.succ_le_succ (ih c)
      · exact Nat.le_succ_of_le (ih prev)

/-- The consecutive-difference relation asserted by the dedup spec. -/
def farApart (a b : TrackPoint) : Prop :=
  dedupTolerance < |b.lat - a.lat| ∨ dedupTolerance < |b.lon - a.lon|

instance : DecidableRel farApart := fun _ _ => by
  unfold farApart; infer_instance

theorem dedupWalk_chain (prev : TrackPoint) (l : List TrackPoint) :
    List.Chain farApart prev (dedupWalk TrackPoint.lat TrackPoint.lon prev l) := by
  induction l generalizing prev with
  | nil => simp [dedupWalk]
  | cons c tl ih =>
      simp only [dedupWalk]
      split
      · next h => exact List.Chain.cons h (ih c)
      · exact ih prev

/-! ## File validation (`utils.py`, `config.py`, `validate_gpx_file`) -/

/-- `APIConstants.MAX_FILE_SIZE_MB` from `config.py`. -/
def MAX_FILE_SIZE_MB : Nat := 10

/-- `APIConstants.MAX_FILE_SIZE_BYTES` from `config.py`. -/
def MAX_FILE_SIZE_BYTES : Nat := MAX_FILE_SIZE_MB * 1024 * 1024

/-- `FileExtensions.GPX_EXTENSIONS` from `config.py`. -/
def GPX_EXTENSIONS : List String := ["gpx"]

/-- Python `str.lower()` (ASCII case folding suffices for the strings the
validator compares). -/
def pyLower (s : String) : String := String.mk (s.data.map Char.toLower)

/-- The characters Python `str.strip()` removes at both ends. -/
def isPyWhitespace (c : Char) : Bool :=
  c = ' ' ∨ c = '\t' ∨ c = '\n' ∨ c = '\r'

/-- Python `str.strip()`. -/
def pyStrip (s : String) : String :=
  String.mk (((s.data.dropWhile isPyWhitespace).reverse.dropWhile isPyWhitespace).reverse)

/-- The characters after the last `'.'`, or `none` when the string has no
`'.'`: this is `filename.rsplit('.', 1)[1]` guarded by `'.' in filename`. -/
def afterLastDot : List Char → Option (List Char)
  | [] => none
  | c :: tl =>
      match afterLastDot tl with
      | some r => some r
      | none => if c = '.' then some tl else none

/-- `validate_file_extension` from `utils.py`:
`'.' in filename and filename.rsplit('.', 1)[1].lower() in allowed_extensions`
(an empty filename is falsy and rejected, and has no dot anyway). -/
def validate_file_extension (filename : String) (allowed : List String) : Bool :=
  match afterLastDot filename.data with
  | none => false
  | some ext => allowed.contains (pyLower (String.mk ext))

/-- `validate_file_size` from `utils.py`: `0 < file_size <= max_size`. -/
def validate_file_size (file_size max_size : Nat) : Bool :=
  decide (0 < file_size ∧ file_size ≤ max_size)

/-- `validate_content_type` from `utils.py`: reject a falsy (empty) content
type, else normalize by taking the part before `';'`, stripping and
lowercasing, and test membership in the expected set. -/
def validate_content_type (content_type : String) (expected : List String) : Bool :=
  if content_type = "" then false
  else expected.contains (pyLower (pyStrip (String.mk (content_type.data.takeWhile (· ≠ ';')))))

/-- `get_expected_content_types_for_extension` from `utils.py`. -/
def get_expected_content_types_for_extension (extension : String) : List String :=
  let e := String.mk ((pyLower extension).data.dropWhile (· = '.'))
  if e = "png" then ["image/png"]
  else if e = "jpg" then ["image/jpeg"]
  else if e = "jpeg" then ["image/jpeg"]
  else if e = "gif" then ["image/gif"]
  else if e = "bmp" then ["image/bmp"]
  else if e = "tiff" then ["image/tiff"]
  else if e = "webp" then ["image/webp"]
  else if e = "avif" then ["image/avif"]
  else if e = "gpx" then
    ["application/gpx+xml", "text/xml", "application/xml", "text/plain",
     "application/octet-stream"]
  else []

/-- The four `FileUploadError` cases `validate_gpx_file` can raise, in source
order. -/
inductive GpxValidationError where
  | notGpxFile
  | invalidContentType
  | tooLarge
  | emptyFile
deriving DecidableEq, Repr

/-- `validate_gpx_file` from `GPXProcessingService`. The byte content enters
only through its length (`len(file_content)`) and its truthiness
(`not file_content`, i.e. length zero), so the model takes the length.
Returns the first failing check, `none` when validation passes. -/
def validate_gpx_file (filename content_type : String) (content_length : Nat) :
    Option GpxValidationError :=
  if ¬ validate_file_extension filename GPX_EXTENSIONS then some .notGpxFile
  else
    let file_extension :=
      match afterLastDot filename.data with
      | some ext => pyLower (String.mk ext)
      | none => ""
    let expected := get_expected_content_types_for_extension file_extension
    if ¬ validate_content_type content_type expected then some .invalidContentType
    else if ¬ validate_file_size content_length MAX_FILE_SIZE_BYTES then some .tooLarge
    else if content_length = 0 then some .emptyFile
    else none

/-! ## Data-quality assessment (`_assess_data_quality`) -/

/-- Python `max` over a nonempty list (the source only applies it to nonempty
generators; on `[]` the model returns 0, a case the source never reaches). -/
def listMax : List ℚ → ℚ
  | [] => 0
  | x :: tl => tl.foldl max x

/-- Python `min` over a nonempty list (see `listMax`). -/
def listMin : List ℚ → ℚ
  | [] => 0
  | x :: tl => tl.foldl min x

/-- Modelled decimal-digit count of `str(x)` after the decimal point, for a
float `x` held as an exact rational: an integral value prints as `x.0`
(one digit), otherwise the count is the least number of decimal places that
represents the value exactly, capped at 17 (the longest `repr` of a double).
Only the density half of `_assess_data_quality` is the subject of a claim;
this model keeps the precision half total and deterministic. -/
def decimal_places (q : ℚ) : Nat :=
  if q.den = 1 then 1
  else ((((List.range 17).map (· + 1)).find? fun n => (q * 10 ^ n).den = 1).getD 17)

/-- The dict returned by `_assess_data_quality`. The empty-input early return
carries no `points_per_degree` / `avg_decimal_places` keys, modelled by
`none`. -/
structure DataQualityReport where
  quality_score : ℚ
  density : String
  precision : String
  points_per_degree : Option ℚ
  avg_decimal_places : Option ℚ
deriving DecidableEq, Repr

/-- `_assess_data_quality` from `GPXProcessingService`. -/
def assess_data_quality (track_points : List TrackPoint) : DataQualityReport :=
  if track_points = [] then
    { quality_score := 0, density := "unknown", precision := "unknown",
      points_per_degree := none, avg_decimal_places := none }
  else
    let density : ℚ :=
      if 2 ≤ track_points.length then
        let lat_span :=
          |listMax (track_points.map TrackPoint.lat) - listMin (track_points.map TrackPoint.lat)|
        let lon_span :=
          |listMax (track_points.map TrackPoint.lon) - listMin (track_points.map TrackPoint.lon)|
        (track_points.length : ℚ) / max (lat_span + lon_span) (1/1000)
      else 0
    let sample := track_points.take (min 100 track_points.length)
    let precision_sum : ℚ :=
      (sample.map fun p =>
        ((decimal_places p.lat : ℚ) + (decimal_places p.lon : ℚ)) / 2).sum
    let avg_precision := precision_sum / (min 100 track_points.length : ℚ)
    let quality_score : ℚ := min 100 (density * 10 + avg_precision * 5)
    { quality_score := pyRound 2 quality_score
      density := if 50 < density then "high" else if 10 < density then "medium" else "low"
      precision :=
        if 6 < avg_precision then "high" else if 4 < avg_precision then "medium" else "low"
      points_per_degree := some (pyRound 2 density)
      avg_decimal_places := some (pyRound 1 avg_precision) }

/-! ## Elevation smoothing (`_smooth_elevation_data`) -/

/-- One step of the smoothing loop at list position `i`: if the point at `i`
carries an elevation, replace it by the mean of the elevations present in the
index window `[i - window_size//2, i + window_size//2 + 1)` of the current
(already partially smoothed) list. Natural subtraction realizes the
`max(0, ...)` clamp of the source. -/
def smoothStep (window_size : Nat) (cur : List TrackPoint) (i : Nat) : List TrackPoint :=
  match (cur.getD i default).elevation with
  | none => cur
  | some _ =>
      let lo := i - window_size / 2
      let hi := min cur.length (i + window_size / 2 + 1)
      let elevation_values := (List.range' lo (hi - lo)).filterMap
        fun j => (cur.getD j default).elevation
      if elevation_values = [] then cur
      else
        cur.set i
          { cur.getD i default with
            elevation := some (elevation_values.sum / (elevation_values.length : ℚ)) }

/-- `_smooth_elevation_data`: no-op when fewer than 3 points carry elevation;
otherwise a left-to-right pass of `smoothStep` with window size
`min(5, len(points_with_elevation) // 10 + 1)`. The source mutates the copied
list while iterating, so later windows read already-smoothed values, which the
left fold reproduces. -/
def smooth_elevation_data (track_points : List TrackPoint) : List TrackPoint :=
  let points_with_elevation := track_points.filter fun p => p.elevation.isSome
  if points_with_elevation.length < 3 then track_points
  else
    let window_size := min 5 (points_with_elevation.length / 10 + 1)
    (List.range track_points.length).foldl (smoothStep window_size) track_points

/-! ## Timestamp interpolation (`_interpolate_missing_timestamps`) -/

/-- The inner write loop of `_interpolate_missing_timestamps` for one gap:
positions `start_pos + j`, `j = 1 .. points_between`, get the linearly
interpolated time. The source indexes `interpolated_points[start_idx + j]`,
always in range on the runs the source performs; an out-of-range position
(unreachable) leaves the list unchanged. -/
def interpolateGap (start_pos points_between : Nat) (start_time end_time : ℚ)
    (cur : List TrackPoint) : List TrackPoint :=
  (List.range' 1 points_between).foldl
    (fun c j =>
      match c.get? (start_pos + j) with
      | none => c
      | some p =>
          c.set (start_pos + j)
            { p with
              time := some (start_time +
                (end_time - start_time) * (j : ℚ) / ((points_between : ℚ) + 1)) })
    cur

/-- `_interpolate_missing_timestamps`: collect the positions that carry a
timestamp (from the list as received), then fill every gap strictly between
two consecutive carriers. Timestamps are rational time values in the model, so
the source's ISO-parsing failure branch (which skips a gap) does not arise. -/
def interpolate_missing_timestamps (track_points : List TrackPoint) : List TrackPoint :=
  let points_with_time := track_points.enum.filter fun ip => ip.2.time.isSome
  if points_with_time.length < 2 then track_points
  else
    (List.range (points_with_time.length - 1)).foldl
      (fun cur k =>
        let s := points_with_time.getD k (0, default)
        let e := points_with_time.getD (k + 1) (0, default)
        if 1 < e.1 - s.1 then
          match s.2.time, e.2.time with
          | some st, some et => interpolateGap s.1 (e.1 - s.1 - 1) st et cur
          | _, _ => cur
        else cur)
      track_points

/-! ## Douglas-Peucker simplification (`_apply_douglas_peucker_simplification`)

The source computes `perpendicular_distance = numerator / sqrt(denominator)`
(0 when the denominator vanishes), with `x = lat`, `y = lon`. Within one
recursive call the line (and hence the denominator) is fixed, so the running
maximum over the scan can be tracked by the numerator alone, and the
`max_distance > epsilon` test, for the nonnegative numerator and epsilon the
source uses, is equivalent to `numerator^2 > epsilon^2 * denominator` together
with `denominator > 0` (when the denominator is 0 every distance is 0 and the
test fails). This keeps the model inside ℚ, where it is executable. -/

/-- Numerator of `perpendicular_distance`:
`abs((y2 - y1)*x0 - (x2 - x1)*y0 + x2*y1 - y2*x1)`. -/
def perpendicular_distance_num (lat lon : α → ℚ) (p line_start line_end : α) : ℚ :=
  |(lon line_end - lon line_start) * lat p - (lat line_end - lat line_start) * lon p +
    lat line_end * lon line_start - lon line_end * lat line_start|

/-- Square of the denominator of `perpendicular_distance`:
`(y2 - y1)**2 + (x2 - x1)**2`. -/
def perpendicular_distance_den_sq (lat lon : α → ℚ) (line_start line_end : α) : ℚ :=
  (lon line_end - lon line_start) ^ 2 + (lat line_end - lat line_start) ^ 2

/-- The scan `for i in range(1, len(points) - 1)` tracking
`(max_distance_numerator, max_index)`, both starting at 0, updating on strict
increase. -/
def findFarthest (lat lon : α → ℚ) [Inhabited α] (points : List α) : ℚ × Nat :=
  (List.range' 1 (points.length - 2)).foldl
    (fun acc i =>
      let d := perpendicular_distance_num lat lon (points.getD i default)
        (points.getD 0 default) (points.getD (points.length - 1) default)
      if acc.1 < d then (d, i) else acc)
    (0, 0)

theorem foldl_invariant {β γ : Type _} (P : β → Prop) (f : β → γ → β) :
    ∀ (l : List γ) (b : β), P b → (∀ b' x, x ∈ l → P b' → P (f b' x)) → P (l.foldl f b) := by
  intro l
  induction l with
  | nil => intro b hb _; exact hb
  | cons x tl ih =>
      intro b hb hstep
      exact ih (f b x) (hstep b x (List.mem_cons_self x tl) hb)
        fun b' y hy => hstep b' y (List.mem_cons_of_mem x hy)

theorem findFarthest_inv (lat lon : α → ℚ) [Inhabited α] (points : List α) :
    0 ≤ (findFarthest lat lon points).1 ∧
      (0 < (findFarthest lat lon points).1 →
        1 ≤ (findFarthest lat lon points).2 ∧
          (findFarthest lat lon points).2 < 1 + (points.length - 2)) := by
  unfold findFarthest
  refine foldl_invariant
    (fun acc : ℚ × Nat =>
      0 ≤ acc.1 ∧ (0 < acc.1 → 1 ≤ acc.2 ∧ acc.2 < 1 + (points.length - 2)))
    _ _ (0, 0) (by simp) ?_
  intro acc i hi hacc
  rw [List.mem_range'_1] at hi
  dsimp only
  split
  · refine ⟨le_of_lt (lt_of_le_of_lt hacc.1 (by assumption)), fun _ => ⟨hi.1, hi.2⟩⟩
  · exact hacc

/-- `douglas_peucker_recursive`, generic in the coordinate projections (used
at the value level over `TrackPoint` and at the heap level over store
indices). -/
def douglas_peucker_recursive (lat lon : α → ℚ) [Inhabited α] (epsilon : ℚ)
    (points : List α) : List α :=
  if points.length < 3 then points
  else
    if hc : 0 < perpendicular_distance_den_sq lat lon (points.getD 0 default)
          (points.getD (points.length - 1) default) ∧
        epsilon ^ 2 * perpendicular_distance_den_sq lat lon (points.getD 0 default)
            (points.getD (points.length - 1) default) <
          (findFarthest lat lon points).1 ^ 2 then
      (douglas_peucker_recursive lat lon epsilon
          (points.take ((findFarthest lat lon points).2 + 1))).dropLast ++
        douglas_peucker_recursive lat lon epsilon
          (points.drop (findFarthest lat lon points).2)
    else [points.getD 0 default, points.getD (points.length - 1) default]
termination_by points.length
decreasing_by
  all_goals
    rename_i h3
    have hpos : 0 < (findFarthest lat lon points).1 := by
      rcases findFarthest_inv lat lon points with ⟨hnn, _⟩
      rcases lt_or_eq_of_le hnn with h | h
      · exact h
      · exfalso
        have := hc.2
        rw [← h] at this
        nlinarith [hc.1, sq_nonneg epsilon]
    rcases (findFarthest_inv lat lon points).2 hpos with ⟨h1, h2⟩
  · simp only [List.length_take]
    omega
  · simp only [List.length_drop]
    omega

/-- `_apply_douglas_peucker_simplification` with the source's default
`epsilon = 0.00001`, on track-point values. -/
def apply_douglas_peucker_simplification (track_points : List TrackPoint) : List TrackPoint :=
  if track_points.length < 3 then track_points
  else douglas_peucker_recursive TrackPoint.lat TrackPoint.lon (1/100000) track_points

/-! ## The enhancement pipeline (`enhance_track_points_for_rendering`) -/

/-- `enhance_track_points_for_rendering`, value level: the list of point
values produced for each quality level. -/
def enhance_track_points_for_rendering (track_points : List TrackPoint)
    (quality_level : String) : List TrackPoint :=
  if track_points.length < 2 then track_points
  else
    let e1 :=
      if quality_level = "medium" ∨ quality_level = "high" ∨ quality_level = "ultra" then
        fix_coordinate_precision (remove_duplicate_points track_points)
      else track_points
    let e2 :=
      if quality_level = "high" ∨ quality_level = "ultra" then
        interpolate_missing_timestamps (smooth_elevation_data e1)
      else e1
    if quality_level = "ultra" then apply_douglas_peucker_simplification e2 else e2

/-! ## Heap model of the enhancement pipeline

A Python list of dicts is a list of references; the stages below are rerun on
an explicit store so that which stage mutates which record is represented.
`_remove_duplicate_points` and the Douglas-Peucker pass build new lists of
existing references, `_fix_coordinate_precision` allocates fresh records
(`point.copy()`), and `_smooth_elevation_data` / `_interpolate_missing_timestamps`
write fields of the records their input list references. -/

/-- The store of point records; a list of dict references is a `List Nat` of
indices into it. -/
abbrev Store := List TrackPoint

/-- Dereference a list of record ids. -/
def readPoints (s : Store) (ids : List Nat) : List TrackPoint :=
  ids.map fun i => s.getD i default

/-- Latitude of the record behind id `i`. -/
def storeLat (s : Store) (i : Nat) : ℚ := (s.getD i default).lat

/-- Longitude of the record behind id `i`. -/
def storeLon (s : Store) (i : Nat) : ℚ := (s.getD i default).lon

/-- `_remove_duplicate_points` at the heap level: filters the reference list,
no writes. -/
def dedup_ids (s : Store) (ids : List Nat) : List Nat :=
  removeDuplicatePointsG (storeLat s) (storeLon s) ids

/-- `_fix_coordinate_precision` at the heap level: for each input reference,
allocate a fresh fixed copy (ids grow from the end of the store) and collect
the fresh ids. -/
def fix_precision_ids (s : Store) : List Nat → Store × List Nat
  | [] => (s, [])
  | i :: tl =>
      let s' := s ++ [fixPoint (s.getD i default)]
      let r := fix_precision_ids s' tl
      (r.1, s.length :: r.2)

/-- One step of heap-level smoothing at position `pos` of the reference list:
the window is over list positions, reads and the write go through the
referenced records. -/
def smooth_ids_step (ids : List Nat) (window_size : Nat) (cur : Store) (pos : Nat) : Store :=
  match (cur.getD (ids.getD pos 0) default).elevation with
  | none => cur
  | some _ =>
      let lo := pos - window_size / 2
      let hi := min ids.length (pos + window_size / 2 + 1)
      let elevation_values := (List.range' lo (hi - lo)).filterMap
        fun j => (cur.getD (ids.getD j 0) default).elevation
      if elevation_values = [] then cur
      else
        cur.set (ids.getD pos 0)
          { cur.getD (ids.getD pos 0) default with
            elevation := some (elevation_values.sum / (elevation_values.length : ℚ)) }

/-- `_smooth_elevation_data` at the heap level: writes elevations of the
records referenced by `ids`, returns the updated store (the source returns a
fresh list object holding the same references). -/
def smooth_ids (s : Store) (ids : List Nat) : Store :=
  let points_with_elevation := ids.filter fun i => (s.getD i default).elevation.isSome
  if points_with_elevation.length < 3 then s
  else
    (List.range ids.length).foldl
      (smooth_ids_step ids (min 5 (points_with_elevation.length / 10 + 1))) s

/-- One gap of heap-level timestamp interpolation (see `interpolateGap`). -/
def interp_gap_ids (ids : List Nat) (start_pos points_between : Nat)
    (start_time end_time : ℚ) (cur : Store) : Store :=
  (List.range' 1 points_between).foldl
    (fun c j =>
      match ids.get? (start_pos + j) with
      | none => c
      | some id =>
          c.set id
            { c.getD id default with
              time := some (start_time +
                (end_time - start_time) * (j : ℚ) / ((points_between : ℚ) + 1)) })
    cur

/-- `_interpolate_missing_timestamps` at the heap level: writes times of the
records referenced by `ids`. -/
def interp_ids (s : Store) (ids : List Nat) : Store :=
  let points_with_time := ids.enum.filter fun pi => (s.getD pi.2 default).time.isSome
  if points_with_time.length < 2 then s
  else
    (List.range (points_with_time.length - 1)).foldl
      (fun cur k =>
        let sp := points_with_time.getD k (0, 0)
        let ep := points_with_time.getD (k + 1) (0, 0)
        if 1 < ep.1 - sp.1 then
          match (cur.getD sp.2 default).time, (cur.getD ep.2 default).time with
          | some st, some et => interp_gap_ids ids sp.1 (ep.1 - sp.1 - 1) st et cur
          | _, _ => cur
        else cur)
      s

/-- `_apply_douglas_peucker_simplification` at the heap level: selects a
subsequence of references, no writes. -/
def apply_dp_ids (s : Store) (ids : List Nat) : List Nat :=
  if ids.length < 3 then ids
  else douglas_peucker_recursive (storeLat s) (storeLon s) (1/100000) ids

/-- `enhance_track_points_for_rendering` at the heap level: returns the
post-call store together with the reference list of the returned Python
list. -/
def enhance_heap (s : Store) (ids : List Nat) (quality_level : String) :
    Store × List Nat :=
  if ids.length < 2 then (s, ids)
  else
    let m1 :=
      if quality_level = "medium" ∨ quality_level = "high" ∨ quality_level = "ultra" then
        fix_precision_ids s (dedup_ids s ids)
      else (s, ids)
    let m2 :=
      if quality_level = "high" ∨ quality_level = "ultra" then
        (interp_ids (smooth_ids m1.1 m1.2) m1.2, m1.2)
      else m1
    if quality_level = "ultra" then (m2.1, apply_dp_ids m2.1 m2.2) else m2

/-! ## The orchestrator (`process_gpx_upload`) -/

/-- The metadata dict built by `extract_gpx_metadata`. Its values come from
the gpxpy parse of the uploaded stream (outside src), so the orchestrator
model receives the extraction outcome as a parameter. -/
structure GpxMetadata where
  name : Option String
  description : Option String
  author : Option String
  link : Option String
  time_bounds : Option (String × String)
  tracks_count : Nat
  waypoints_count : Nat
  routes_count : Nat
deriving DecidableEq, Repr

/-- The result dict assembled by `process_gpx_upload`. The `metadata` key is
present only when requested (`none` = key absent, `some none` = key present
with value `None`). -/
structure ProcessingResult where
  success : Bool
  track_points : List TrackPoint
  points_count : Nat
  original_points_count : Nat
  quality_level : String
  data_quality : DataQualityReport
  metadata : Option (Option GpxMetadata)
deriving DecidableEq, Repr

/-- `process_gpx_upload` from `GPXProcessingService`, for an upload whose GPX
parse succeeded with `parsed_track_points` (parsing itself is done by gpxpy,
outside src; a parse failure aborts before any of the code modelled here). The
metadata-extraction outcome is likewise a parameter. Python evaluates
`_assess_data_quality(track_points)` after the enhancement call returned, so
the model reads the raw list's records out of the post-enhancement store. -/
def process_gpx_upload (filename content_type : String) (content_length : Nat)
    (parsed_track_points : List TrackPoint) (include_metadata : Bool)
    (quality_level : String) (metadata_outcome : Except String GpxMetadata) :
    Except GpxValidationError ProcessingResult :=
  match validate_gpx_file filename content_type content_length with
  | some e => .error e
  | none =>
      let n := parsed_track_points.length
      let enhanced := enhance_heap parsed_track_points (List.range n) quality_level
      let enhanced_track_points := readPoints enhanced.1 enhanced.2
      let result : ProcessingResult :=
        { success := true
          track_points := enhanced_track_points
          points_count := enhanced_track_points.length
          original_points_count := n
          quality_level := quality_level
          data_quality := assess_data_quality (readPoints enhanced.1 (List.range n))
          metadata := none }
      if include_metadata then
        match metadata_outcome with
        | .ok m => .ok { result with metadata := some (some m) }
        | .error _ => .ok { result with metadata := some none }
      else .ok result

/-! ## Supporting lemmas -/

theorem remove_duplicate_points_length_le (pts : List TrackPoint) :
    (remove_duplicate_points pts).length ≤ pts.length := by
  cases pts with
  | nil => simp [remove_duplicate_points, removeDuplicatePointsG]
  | cons p tl =>
      simpa [remove_duplicate_points, removeDuplicatePointsG] using
        Nat.succ_le_succ (dedupWalk_length_le TrackPoint.lat TrackPoint.lon p tl)

theorem smoothStep_length (ws : Nat) (cur : List TrackPoint) (i : Nat) :
    (smoothStep ws cur i).length = cur.length := by
  unfold smoothStep
  split
  · rfl
  · dsimp only
    split
    · rfl
    · simp

theorem smooth_elevation_data_length (pts : List TrackPoint) :
    (smooth_elevation_data pts).length = pts.length := by
  unfold smooth_elevation_data
  dsimp only
  split
  · rfl
  · apply foldl_invariant (fun cur : List TrackPoint => cur.length = pts.length)
    · rfl
    · intro cur i _ h
      rw [smoothStep_length, h]

theorem interpolateGap_length (start_pos points_between : Nat) (st et : ℚ)
    (cur : List TrackPoint) :
    (interpolateGap start_pos points_between st et cur).length = cur.length := by
  unfold interpolateGap
  apply foldl_invariant (fun c : List TrackPoint => c.length = cur.length)
  · rfl
  · intro c j _ h
    dsimp only
    split
    · exact h
    · simpa using h

theorem interpolate_missing_timestamps_length (pts : List TrackPoint) :
    (interpolate_missing_timestamps pts).length = pts.length := by
  unfold interpolate_missing_timestamps
  dsimp only
  split
  · rfl
  · apply foldl_invariant (fun c : List TrackPoint => c.length = pts.length)
    · rfl
    · intro c k _ h
      dsimp only
      split
      · split
        · rw [interpolateGap_length]
          exact h
        · exact h
      · exact h

theorem enhance_of_length_lt_two (pts : List TrackPoint) (quality_level : String)
    (h : pts.length < 2) :
    enhance_track_points_for_rendering pts quality_level = pts := by
  unfold enhance_track_points_for_rendering
  rw [if_pos h]

theorem enhance_low_eq (pts : List TrackPoint) :
    enhance_track_points_for_rendering pts "low" = pts := by
  unfold enhance_track_points_for_rendering
  dsimp only
  split
  · rfl
  · rw [if_neg (show ¬(("low" : String) = "medium" ∨ ("low" : String) = "high" ∨
        ("low" : String) = "ultra") by decide),
      if_neg (show ¬(("low" : String) = "high" ∨ ("low" : String) = "ultra") by decide),
      if_neg (show ¬("low" : String) = "ultra" by decide)]

theorem enhance_medium_eq (pts : List TrackPoint) (h : ¬ pts.length < 2) :
    enhance_track_points_for_rendering pts "medium" =
      fix_coordinate_precision (remove_duplicate_points pts) := by
  unfold enhance_track_points_for_rendering
  dsimp only
  rw [if_neg h,
    if_pos (show ("medium" : String) = "medium" ∨ ("medium" : String) = "high" ∨
      ("medium" : String) = "ultra" by decide),
    if_neg (show ¬(("medium" : String) = "high" ∨ ("medium" : String) = "ultra") by decide),
    if_neg (show ¬("medium" : String) = "ultra" by decide)]

theorem enhance_high_eq (pts : List TrackPoint) (h : ¬ pts.length < 2) :
    enhance_track_points_for_rendering pts "high" =
      interpolate_missing_timestamps (smooth_elevation_data
        (fix_coordinate_precision (remove_duplicate_points pts))) := by
  unfold enhance_track_points_for_rendering
  dsimp only
  rw [if_neg h,
    if_pos (show ("high" : String) = "medium" ∨ ("high" : String) = "high" ∨
      ("high" : String) = "ultra" by decide),
    if_pos (show ("high" : String) = "high" ∨ ("high" : String) = "ultra" by decide),
    if_neg (show ¬("high" : String) = "ultra" by decide)]

/-! ## Claims -/

/-- C8: applying the precision fix twice equals applying it once, and the fix
preserves length and order (the `i`-th output point is the fixed `i`-th input
point). -/
theorem precision_fix_idempotent (pts : List TrackPoint) :
    fix_coordinate_precision (fix_coordinate_precision pts) = fix_coordinate_precision pts ∧
    (fix_coordinate_precision pts).length = pts.length ∧
    ∀ i : Nat, (fix_coordinate_precision pts)[i]? = pts[i]?.map fixPoint := by
  refine ⟨?_, ?_, ?_⟩
  · rw [fix_coordinate_precision_eq_map, fix_coordinate_precision_eq_map, List.map_map]
    exact List.map_congr_left fun p _ => fixPoint_fixPoint p
  · simp [fix_coordinate_precision_eq_map]
  · intro i
    simp [fix_coordinate_precision_eq_map]

/-- C5: dedup keeps the first point, never lengthens the list, and every two
consecutive output points differ in latitude or longitude by more than
1e-6. -/
theorem dedup_spec (pts : List TrackPoint) :
    (remove_duplicate_points pts).head? = pts.head? ∧
    (remove_duplicate_points pts).length ≤ pts.length ∧
    List.Chain' farApart (remove_duplicate_points pts) := by
  refine ⟨?_, remove_duplicate_points_length_le pts, ?_⟩
  · cases pts <;> rfl
  · cases pts with
    | nil => simp [remove_duplicate_points, removeDuplicatePointsG]
    | cons p tl => exact dedupWalk_chain p tl

/-- C10: for any quality level, a list with fewer than two points is returned
unchanged by the enhancement pipeline; no stage runs. -/
theorem enhance_short_input_identity (pts : List TrackPoint) (quality_level : String)
    (h : pts.length < 2) :
    enhance_track_points_for_rendering pts quality_level = pts :=
  enhance_of_length_lt_two pts quality_level h

/-- Witness for C10: a single point whose latitude has more than 7 decimal
places passes through High enhancement unrounded (and the precision fix would
have changed it). -/
theorem enhance_short_input_identity_witness :
    ([⟨100000015/1000000000, 0, some 10, none⟩] : List TrackPoint).length < 2 ∧
    enhance_track_points_for_rendering
        [⟨100000015/1000000000, 0, some 10, none⟩] "high" =
      [⟨100000015/1000000000, 0, some 10, none⟩] ∧
    fixPoint ⟨100000015/1000000000, 0, some 10, none⟩ ≠
      ⟨100000015/1000000000, 0, some 10, none⟩ :=
  ⟨by decide, enhance_short_input_identity _ "high" (by decide),
    by with_unfolding_all decide⟩

/-- C6: Low-quality enhancement is the identity, and point counts are
monotone: High output count ≤ Medium output count ≤ raw count. -/
theorem enhance_quality_ordering (pts : List TrackPoint) :
    enhance_track_points_for_rendering pts "low" = pts ∧
    (enhance_track_points_for_rendering pts "high").length ≤
      (enhance_track_points_for_rendering pts "medium").length ∧
    (enhance_track_points_for_rendering pts "medium").length ≤ pts.length := by
  refine ⟨enhance_low_eq pts, ?_, ?_⟩ <;> by_cases h : pts.length < 2
  · rw [enhance_of_length_lt_two _ _ h, enhance_of_length_lt_two _ _ h]
  · rw [enhance_medium_eq pts h, enhance_high_eq pts h,
      interpolate_missing_timestamps_length, smooth_elevation_data_length]
  · rw [enhance_of_length_lt_two _ _ h]
  · rw [enhance_medium_eq pts h, fix_coordinate_precision_eq_map, List.length_map]
    exact remove_duplicate_points_length_le pts

/-- C1: for an accepted filename and content type, an empty upload is reported
with the TooLarge error, not the Empty error: `validate_file_size` requires
`0 < file_size`, so the dedicated empty-file branch of `validate_gpx_file` is
unreachable for every content length. -/
theorem validate_empty_file_reports_too_large :
    validate_gpx_file "track.gpx" "application/gpx+xml" 0 =
      some GpxValidationError.tooLarge ∧
    ∀ content_length : Nat,
      validate_gpx_file "track.gpx" "application/gpx+xml" content_length =
        (if content_length = 0 ∨ MAX_FILE_SIZE_BYTES < content_length
         then some GpxValidationError.tooLarge
         else none) := by
  constructor
  · decide
  · intro n
    unfold validate_gpx_file
    dsimp only
    rw [if_neg (show ¬¬ validate_file_extension "track.gpx" GPX_EXTENSIONS = true by decide),
      if_neg (show ¬¬ validate_content_type "application/gpx+xml"
        (get_expected_content_types_for_extension
          (match afterLastDot "track.gpx".data with
            | some ext => pyLower (String.mk ext)
            | none => "")) = true by decide)]
    by_cases h0 : n = 0 ∨ MAX_FILE_SIZE_BYTES < n
    · rw [if_pos h0, if_pos (show ¬ validate_file_size n MAX_FILE_SIZE_BYTES = true by
        unfold validate_file_size
        simp only [decide_eq_true_eq]
        omega)]
    · push_neg at h0
      rw [if_neg (show (n = 0 ∨ MAX_FILE_SIZE_BYTES < n) → False by
          rintro (e | e) <;> omega),
        if_neg (show ¬¬ validate_file_size n MAX_FILE_SIZE_BYTES = true by
          unfold validate_file_size
          simp only [decide_eq_true_eq, not_not]
          omega),
        if_neg h0.1]

set_option maxRecDepth 100000

/-- The density formula asserted for the quality assessor: point count over
the epsilon-floored coordinate span `(max_lat - min_lat) + (max_lon -
min_lon)`. -/
def points_per_degree_formula (pts : List TrackPoint) : ℚ :=
  (pts.length : ℚ) /
    max (|listMax (pts.map TrackPoint.lat) - listMin (pts.map TrackPoint.lat)| +
         |listMax (pts.map TrackPoint.lon) - listMin (pts.map TrackPoint.lon)|) (1/1000)

/-- Counterexample for C2 as stated: on a single-point list (which is
non-empty) the source sets the density to 0 without evaluating the span
formula, while the formula yields `1 / 0.001 = 1000`. -/
theorem assess_density_singleton_counterexample :
    (assess_data_quality [⟨1, 2, none, none⟩]).points_per_degree = some 0 ∧
    points_per_degree_formula [⟨1, 2, none, none⟩] = 1000 ∧
    some (0 : ℚ) ≠ some (1000 : ℚ) := by
  refine ⟨by with_unfolding_all decide, by with_unfolding_all decide, by simp⟩

/-- C2 (amended): for lists with at least 2 points the assessor's
`points_per_degree` is the density formula rounded to 2 decimal places, and
the density rating is high / medium / low according to whether the (unrounded)
density exceeds 50 / 10. -/
theorem assess_density_spec (pts : List TrackPoint) (h : 2 ≤ pts.length) :
    (assess_data_quality pts).points_per_degree =
      some (pyRound 2 (points_per_degree_formula pts)) ∧
    (assess_data_quality pts).density =
      (if 50 < points_per_degree_formula pts then "high"
       else if 10 < points_per_degree_formula pts then "medium" else "low") := by
  have hne : pts ≠ [] := by
    intro e
    rw [e] at h
    simp at h
  unfold assess_data_quality
  rw [if_neg hne]
  dsimp only
  rw [if_pos h]
  constructor <;> rfl

/-- Witness for C2: a concrete 2-point track. -/
theorem assess_density_spec_witness :
    2 ≤ ([⟨0, 0, none, none⟩, ⟨1, 2, none, none⟩] : List TrackPoint).length ∧
    ((assess_data_quality [⟨0, 0, none, none⟩, ⟨1, 2, none, none⟩]).points_per_degree =
        some (pyRound 2 (points_per_degree_formula
          [⟨0, 0, none, none⟩, ⟨1, 2, none, none⟩])) ∧
      (assess_data_quality [⟨0, 0, none, none⟩, ⟨1, 2, none, none⟩]).density =
        (if 50 < points_per_degree_formula [⟨0, 0, none, none⟩, ⟨1, 2, none, none⟩]
          then "high"
          else if 10 < points_per_degree_formula [⟨0, 0, none, none⟩, ⟨1, 2, none, none⟩]
            then "medium" else "low")) :=
  ⟨by decide, assess_density_spec _ (by decide)⟩

/-- The 5-point track of end-to-end scenario B: distinct integer coordinates
(so dedup and the precision fix change nothing) and elevations
`[10, 10, 100, 10, 10]`. -/
def pts5C3 : List TrackPoint :=
  [⟨0, 0, some 10, none⟩, ⟨1, 1, some 10, none⟩, ⟨2, 2, some 100, none⟩,
   ⟨3, 3, some 10, none⟩, ⟨4, 4, some 10, none⟩]

/-- Counterexample for C3 as stated: High-quality enhancement leaves the
elevation spike at index 2 at exactly 100 — it is not reduced toward the
neighborhood mean, because the specified window formula gives window size 1
for 5 elevation-carrying points, making the moving average the identity. -/
theorem smoothing_scenarioB_counterexample :
    ((enhance_track_points_for_rendering pts5C3 "high").getD 2 default).elevation =
      some 100 ∧
    ¬ ∃ e : ℚ,
        ((enhance_track_points_for_rendering pts5C3 "high").getD 2 default).elevation =
          some e ∧ e < 100 := by
  have h1 : ((enhance_track_points_for_rendering pts5C3 "high").getD 2 default).elevation =
      some 100 := by
    with_unfolding_all decide
  refine ⟨h1, ?_⟩
  rintro ⟨e, he, hlt⟩
  rw [h1] at he
  injection he with he'
  rw [← he'] at hlt
  exact absurd hlt (by norm_num)

/-- C3 (amended): for the 5-point track with elevations `[10, 10, 100, 10,
10]`, the window formula `min(5, count // 10 + 1)` evaluates to 1, so the
centered moving average leaves every elevation unchanged: High-quality
enhancement returns the track unchanged and the spike at index 2 stays
100. -/
theorem smoothing_scenarioB_amended :
    min 5 ((pts5C3.filter fun p => p.elevation.isSome).length / 10 + 1) = 1 ∧
    enhance_track_points_for_rendering pts5C3 "high" = pts5C3 ∧
    ((enhance_track_points_for_rendering pts5C3 "high").getD 2 default).elevation =
      some 100 := by
  refine ⟨by decide, by with_unfolding_all decide, by with_unfolding_all decide⟩

theorem head?_eq_getD {α : Type _} [Inhabited α] {l : List α} (h : l ≠ []) :
    l.head? = some (l.getD 0 default) := by
  cases l with
  | nil => exact absurd rfl h
  | cons a tl => rfl

theorem getLast?_eq_getD {α : Type _} [Inhabited α] {l : List α} (h : l ≠ []) :
    l.getLast? = some (l.getD (l.length - 1) default) := by
  rw [List.getLast?_eq_getElem?]
  have hlt : l.length - 1 < l.length := by
    cases l with
    | nil => exact absurd rfl h
    | cons a tl => simp
  rw [List.getElem?_eq_getElem hlt]
  simp [List.getD_eq_getElem?_getD, List.getElem?_eq_getElem hlt]

theorem head?_dropLast_of_two_le {α : Type _} {l : List α} (h : 2 ≤ l.length) :
    l.dropLast.head? = l.head? := by
  match l, h with
  | a :: b :: tl, _ => simp

theorem getLast?_drop_of_lt {α : Type _} {l : List α} {m : Nat} (h : m < l.length) :
    (l.drop m).getLast? = l.getLast? := by
  rw [List.getLast?_eq_getElem?, List.getLast?_eq_getElem?, List.getElem?_drop]
  congr 1
  simp only [List.length_drop]
  omega

theorem dp_rec_spec (lat lon : α → ℚ) [Inhabited α] (epsilon : ℚ) (points : List α) :
    (douglas_peucker_recursive lat lon epsilon points).length ≤ points.length ∧
    (2 ≤ points.length → 2 ≤ (douglas_peucker_recursive lat lon epsilon points).length) ∧
    (douglas_peucker_recursive lat lon epsilon points).head? = points.head? ∧
    (douglas_peucker_recursive lat lon epsilon points).getLast? = points.getLast? := by
  rw [douglas_peucker_recursive]
  split
  · exact ⟨le_refl _, fun h => h, rfl, rfl⟩
  · next h3 =>
    have hne : points ≠ [] := by
      intro e
      rw [e] at h3
      exact h3 (by simp)
    split
    · next hc =>
      have hpos : 0 < (findFarthest lat lon points).1 := by
        rcases findFarthest_inv lat lon points with ⟨hnn, _⟩
        rcases lt_or_eq_of_le hnn with h | h
        · exact h
        · exfalso
          have h2 := hc.2
          rw [← h] at h2
          nlinarith [hc.1, sq_nonneg epsilon]
      rcases (findFarthest_inv lat lon points).2 hpos with ⟨hm1, hm2⟩
      have hlen3 : 3 ≤ points.length := by omega
      have IH1 := dp_rec_spec lat lon epsilon
        (points.take ((findFarthest lat lon points).2 + 1))
      have IH2 := dp_rec_spec lat lon epsilon
        (points.drop (findFarthest lat lon points).2)
      have hlt : (points.take ((findFarthest lat lon points).2 + 1)).length =
          (findFarthest lat lon points).2 + 1 := by
        simp only [List.length_take]
        omega
      have hld : (points.drop (findFarthest lat lon points).2).length =
          points.length - (findFarthest lat lon points).2 := by
        simp
      have hL2 : 2 ≤ (douglas_peucker_recursive lat lon epsilon
          (points.take ((findFarthest lat lon points).2 + 1))).length := by
        apply IH1.2.1
        omega
      have hR2 : 2 ≤ (douglas_peucker_recursive lat lon epsilon
          (points.drop (findFarthest lat lon points).2)).length := by
        apply IH2.2.1
        omega
      have hL_le := IH1.1
      have hR_le := IH2.1
      rw [hlt] at hL_le
      rw [hld] at hR_le
      refine ⟨?_, fun _ => ?_, ?_, ?_⟩
      · simp only [List.length_append, List.length_dropLast]
        omega
      · simp only [List.length_append, List.length_dropLast]
        omega
      · rw [List.head?_append, head?_dropLast_of_two_le hL2, IH1.2.2.1,
          List.head?_take]
        rw [if_neg (by omega), head?_eq_getD hne]
        rfl
      · rw [List.getLast?_append, IH2.2.2.2, getLast?_drop_of_lt (by omega),
          getLast?_eq_getD hne]
        rfl
    · next hc =>
      refine ⟨by simp; omega, fun _ => by simp, ?_, ?_⟩
      · rw [head?_eq_getD hne]
        rfl
      · rw [getLast?_eq_getD hne]
        simp
termination_by points.length
decreasing_by
  · simp only [List.length_take]
    omega
  · simp only [List.length_drop]
    omega

/-- C4: Douglas-Peucker simplification never lengthens the list, preserves
the first and last input points, and returns inputs with fewer than 3 points
unchanged. -/
theorem douglas_peucker_safety (pts : List TrackPoint) :
    (apply_douglas_peucker_simplification pts).length ≤ pts.length ∧
    (apply_douglas_peucker_simplification pts).head? = pts.head? ∧
    (apply_douglas_peucker_simplification pts).getLast? = pts.getLast? ∧
    (pts.length < 3 → apply_douglas_peucker_simplification pts = pts) := by
  unfold apply_douglas_peucker_simplification
  split
  · exact ⟨le_refl _, rfl, rfl, fun _ => rfl⟩
  · next h =>
    have s := dp_rec_spec TrackPoint.lat TrackPoint.lon (1/100000) pts
    exact ⟨s.1, s.2.2.1, s.2.2.2, fun hlt => absurd hlt h⟩

/-- Witness for C4: a concrete 2-point input is returned unchanged. -/
theorem douglas_peucker_safety_witness :
    ([⟨0, 0, none, none⟩, ⟨1, 1, none, none⟩] : List TrackPoint).length < 3 ∧
    apply_douglas_peucker_simplification [⟨0, 0, none, none⟩, ⟨1, 1, none, none⟩] =
      [⟨0, 0, none, none⟩, ⟨1, 1, none, none⟩] :=
  ⟨by decide, (douglas_peucker_safety _).2.2.2 (by decide)⟩

theorem getD_mem_of_lt {α : Type _} {l : List α} {p : Nat} (d : α) (h : p < l.length) :
    l.getD p d ∈ l := by
  rw [List.getD_eq_getElem?_getD, List.getElem?_eq_getElem h]
  exact List.getElem_mem h

theorem fix_precision_ids_store (ids : List Nat) : ∀ s : Store,
    ∃ t, (fix_precision_ids s ids).1 = s ++ t := by
  induction ids with
  | nil => exact fun s => ⟨[], by simp [fix_precision_ids]⟩
  | cons i tl ih =>
      intro s
      rcases ih (s ++ [fixPoint (s.getD i default)]) with ⟨t, ht⟩
      refine ⟨[fixPoint (s.getD i default)] ++ t, ?_⟩
      show (fix_precision_ids (s ++ [fixPoint (s.getD i default)]) tl).1 = _
      rw [ht, List.append_assoc]

theorem fix_precision_ids_ids_ge (ids : List Nat) : ∀ (s : Store) (id : Nat),
    id ∈ (fix_precision_ids s ids).2 → s.length ≤ id := by
  induction ids with
  | nil => intro s id h; simp [fix_precision_ids] at h
  | cons i tl ih =>
      intro s id h
      have h' : id = s.length ∨ id ∈ (fix_precision_ids
          (s ++ [fixPoint (s.getD i default)]) tl).2 := by
        simpa [fix_precision_ids] using h
      rcases h' with h' | h'
      · omega
      · have := ih (s ++ [fixPoint (s.getD i default)]) id h'
        simp at this
        omega

theorem smooth_ids_step_getElem? (ids : List Nat) (ws : Nat) (cur : Store)
    (pos : Nat) (i : Nat) (hpos : pos < ids.length) (h : i ∉ ids) :
    (smooth_ids_step ids ws cur pos)[i]? = cur[i]? := by
  unfold smooth_ids_step
  split
  · rfl
  · dsimp only
    split
    · rfl
    · refine List.getElem?_set_ne ?_
      intro e
      exact h (e ▸ getD_mem_of_lt 0 hpos)

theorem smooth_ids_getElem? (s : Store) (ids : List Nat) (i : Nat) (h : i ∉ ids) :
    (smooth_ids s ids)[i]? = s[i]? := by
  unfold smooth_ids
  dsimp only
  split
  · rfl
  · apply foldl_invariant (fun cur : Store => cur[i]? = s[i]?)
    · rfl
    · intro cur pos hmem hP
      rw [smooth_ids_step_getElem? ids _ cur pos i (List.mem_range.mp hmem) h]
      exact hP

theorem interp_gap_ids_getElem? (ids : List Nat) (sp pb : Nat) (st et : ℚ)
    (cur : Store) (i : Nat) (h : i ∉ ids) :
    (interp_gap_ids ids sp pb st et cur)[i]? = cur[i]? := by
  unfold interp_gap_ids
  apply foldl_invariant (fun acc : Store => acc[i]? = cur[i]?)
  · rfl
  · intro acc j _ hP
    dsimp only
    split
    · exact hP
    · next id heq =>
        rw [List.getElem?_set_ne, hP]
        intro e
        exact h (e ▸ List.get?_mem heq)

theorem interp_ids_getElem? (s : Store) (ids : List Nat) (i : Nat) (h : i ∉ ids) :
    (interp_ids s ids)[i]? = s[i]? := by
  unfold interp_ids
  dsimp only
  split
  · rfl
  · apply foldl_invariant (fun acc : Store => acc[i]? = s[i]?)
    · rfl
    · intro acc k _ hP
      dsimp only
      split
      · split
        · rw [interp_gap_ids_getElem? _ _ _ _ _ _ _ h]
          exact hP
        · exact hP
      · exact hP

theorem enhance_heap_preserves (raw : Store) (quality_level : String) (i : Nat)
    (h : i < raw.length) :
    (enhance_heap raw (List.range raw.length) quality_level).1[i]? = raw[i]? := by
  unfold enhance_heap
  dsimp only
  split
  · rfl
  · by_cases hm : quality_level = "medium" ∨ quality_level = "high" ∨
        quality_level = "ultra"
    · rw [if_pos hm]
      rcases fix_precision_ids_store (dedup_ids raw (List.range raw.length)) raw with
        ⟨t, ht⟩
      have hnotmem : i ∉ (fix_precision_ids raw
          (dedup_ids raw (List.range raw.length))).2 := by
        intro hmem
        have := fix_precision_ids_ids_ge (dedup_ids raw (List.range raw.length)) raw i hmem
        omega
      have hbase : (fix_precision_ids raw (dedup_ids raw (List.range raw.length))).1[i]? =
          raw[i]? := by
        rw [ht]
        exact List.getElem?_append_left h
      by_cases hh : quality_level = "high" ∨ quality_level = "ultra"
      · rw [if_pos hh]
        by_cases hu : quality_level = "ultra"
        · rw [if_pos hu]
          dsimp only
          rw [interp_ids_getElem? _ _ _ hnotmem, smooth_ids_getElem? _ _ _ hnotmem, hbase]
        · rw [if_neg hu]
          dsimp only
          rw [interp_ids_getElem? _ _ _ hnotmem, smooth_ids_getElem? _ _ _ hnotmem, hbase]
      · rw [if_neg hh]
        have hu : ¬ quality_level = "ultra" := fun e => hh (Or.inr e)
        rw [if_neg hu]
        exact hbase
    · rw [if_neg hm]
      have hh : ¬ (quality_level = "high" ∨ quality_level = "ultra") := by
        rintro (e | e)
        · exact hm (Or.inr (Or.inl e))
        · exact hm (Or.inr (Or.inr e))
      rw [if_neg hh]
      have hu : ¬ quality_level = "ultra" := fun e => hh (Or.inr e)
      rw [if_neg hu]

theorem readPoints_range_of_preserved (s s' : Store)
    (h : ∀ i, i < s.length → s'[i]? = s[i]?) :
    readPoints s' (List.range s.length) = s := by
  apply List.ext_getElem?
  intro i
  simp only [readPoints, List.getElem?_map]
  by_cases hi : i < s.length
  · rw [List.getElem?_range hi]
    simp only [Option.map_some']
    rw [List.getD_eq_getElem?_getD, h i hi, List.getElem?_eq_getElem hi]
    rfl
  · rw [List.getElem?_eq_none (by simpa using Nat.le_of_not_lt hi),
      List.getElem?_eq_none (Nat.le_of_not_lt hi)]
    rfl

/-- C7: for every upload that passes validation (and whose parse produced
`parsed`), the orchestrator returns a successful result carrying the raw count
as `original_points_count`, the enhanced points and their count, the echoed
quality level, and a data-quality report equal to the one computed on the raw
parsed points: the enhancement stages never write to the records the raw list
references, because the mutating stages only run downstream of the precision
fix, which allocates fresh records. -/
theorem process_result_fields (filename content_type : String) (content_length : Nat)
    (parsed : List TrackPoint) (include_metadata : Bool) (quality_level : String)
    (mo : Except String GpxMetadata)
    (h : validate_gpx_file filename content_type content_length = none) :
    ∃ r : ProcessingResult,
      process_gpx_upload filename content_type content_length parsed include_metadata
        quality_level mo = .ok r ∧
      r.success = true ∧
      r.original_points_count = parsed.length ∧
      r.track_points = readPoints
        (enhance_heap parsed (List.range parsed.length) quality_level).1
        (enhance_heap parsed (List.range parsed.length) quality_level).2 ∧
      r.points_count = r.track_points.length ∧
      r.quality_level = quality_level ∧
      r.data_quality = assess_data_quality parsed := by
  have hq : assess_data_quality (readPoints
      (enhance_heap parsed (List.range parsed.length) quality_level).1
      (List.range parsed.length)) = assess_data_quality parsed :=
    congrArg assess_data_quality
      (readPoints_range_of_preserved parsed _
        fun i hi => enhance_heap_preserves parsed quality_level i hi)
  unfold process_gpx_upload
  rw [h]
  dsimp only
  cases include_metadata with
  | false =>
      simp only [Bool.false_eq_true, if_false]
      exact ⟨_, rfl, rfl, rfl, rfl, rfl, rfl, hq⟩
  | true =>
      simp only [if_true]
      cases mo with
      | ok m => exact ⟨_, rfl, rfl, rfl, rfl, rfl, rfl, hq⟩
      | error e => exact ⟨_, rfl, rfl, rfl, rfl, rfl, rfl, hq⟩

/-- C9: with metadata requested, a metadata-extraction failure still yields a
successful result, with the metadata field present but `None` and every other
field identical to the result a successful extraction would produce. -/
theorem metadata_failure_best_effort (filename content_type : String)
    (content_length : Nat) (parsed : List TrackPoint) (quality_level : String)
    (err : String) (m : GpxMetadata)
    (h : validate_gpx_file filename content_type content_length = none) :
    ∃ r r' : ProcessingResult,
      process_gpx_upload filename content_type content_length parsed true quality_level
        (.error err) = .ok r ∧
      process_gpx_upload filename content_type content_length parsed true quality_level
        (.ok m) = .ok r' ∧
      r.metadata = some none ∧ r.success = true ∧
      r.track_points = r'.track_points ∧ r.points_count = r'.points_count ∧
      r.original_points_count = r'.original_points_count ∧
      r.quality_level = r'.quality_level ∧ r.data_quality = r'.data_quality := by
  unfold process_gpx_upload
  rw [h]
  dsimp only
  exact ⟨_, _, rfl, rfl, rfl, rfl, rfl, rfl, rfl, rfl, rfl⟩

/-- Witness for C7: a concrete validated upload. -/
theorem process_result_fields_witness :
    validate_gpx_file "run.gpx" "text/xml" 12 = none ∧
    ∃ r : ProcessingResult,
      process_gpx_upload "run.gpx" "text/xml" 12 [⟨1, 2, some 3, none⟩] false "low"
        (.error "boom") = .ok r ∧
      r.success = true ∧
      r.original_points_count = ([⟨1, 2, some 3, none⟩] : List TrackPoint).length ∧
      r.track_points = readPoints
        (enhance_heap [⟨1, 2, some 3, none⟩]
          (List.range ([⟨1, 2, some 3, none⟩] : List TrackPoint).length) "low").1
        (enhance_heap [⟨1, 2, some 3, none⟩]
          (List.range ([⟨1, 2, some 3, none⟩] : List TrackPoint).length) "low").2 ∧
      r.points_count = r.track_points.length ∧
      r.quality_level = "low" ∧
      r.data_quality = assess_data_quality [⟨1, 2, some 3, none⟩] :=
  ⟨by decide,
    process_result_fields "run.gpx" "text/xml" 12 [⟨1, 2, some 3, none⟩] false "low"
      (.error "boom") (by decide)⟩

/-- Witness for C9: a concrete validated upload with failing metadata
extraction. -/
theorem metadata_failure_best_effort_witness :
    validate_gpx_file "run.gpx" "text/xml" 12 = none ∧
    ∃ r r' : ProcessingResult,
      process_gpx_upload "run.gpx" "text/xml" 12 [⟨1, 2, some 3, none⟩] true "high"
        (.error "boom") = .ok r ∧
      process_gpx_upload "run.gpx" "text/xml" 12 [⟨1, 2, some 3, none⟩] true "high"
        (.ok ⟨none, none, none, none, none, 0, 0, 0⟩) = .ok r' ∧
      r.metadata = some none ∧ r.success = true ∧
      r.track_points = r'.track_points ∧ r.points_count = r'.points_count ∧
      r.original_points_count = r'.original_points_count ∧
      r.quality_level = r'.quality_level ∧ r.data_quality = r'.data_quality :=
  ⟨by decide,
    metadata_failure_best_effort "run.gpx" "text/xml" 12 [⟨1, 2, some 3, none⟩] "high"
      "boom" ⟨none, none, none, none, none, 0, 0, 0⟩ (by decide)⟩
